import Mathlib

/-!
Verification development for the blockdash-api synchronization and
projection-orchestration layer.

The definitions below are shallow embeddings of the Python source:

* `app/neo4j_access/update_functionality.py` — the ingestion pipeline
  (`insert_new_trx_data`, `get_data_from_opensea`, `get_update_frequency`);
* `app/neo4j_access/centrality_functionality.py` — the centrality service
  and its projection lifecycle (`get_most_central_nodes`);
* `app/neo4j_access/community_detection.py` — the community membership
  writer (`update_project_graph`, `update_community_detection`,
  `update_nodes_com_property`, `update_community_id_info`);
* `app/neo4j_access/community_functionality.py` — scope and collection
  resolution (`get_scope`, `get_collection`).

Cypher queries are embedded by their semantics on an explicit graph state:
`MERGE` on a property map matches a node/edge whose listed properties all
equal the given values and creates one with exactly those values otherwise;
`CREATE` appends unconditionally; `MATCH` guards on existence.
-/

namespace Blockdash

/-! ## Event data (the shape consumed from the OpenSea feed) -/

/-- A dynamically typed Neo4j property value (needed because the sale
fallback writes an `Int` 0 and the string "unknown" into the same slots). -/
inductive PropVal where
  | str (s : String)
  | int (n : Int)
deriving DecidableEq, Repr

/-- The `nft` sub-object of a feed event: `identifier` and `collection`. -/
structure NftRef where
  identifier : String
  collection : String
deriving DecidableEq, Repr

/-- The optional `payment` sub-object of a sale event. -/
structure Payment where
  quantity : Int
  symbol : String
  decimals : Int
  token_address : String
deriving DecidableEq, Repr

/-- One event record as consumed by `insert_new_trx_data`. -/
structure EventData where
  event_type : String
  from_address : String
  to_address : String
  nft : NftRef
  transaction : String
  event_timestamp : Int
  payment : Option Payment
deriving DecidableEq, Repr

/-! ## Graph state -/

/-- An `Account` node with the three per-collection membership arrays
(`boredapeyachtclub_com_id_list`, `complete_com_id_list`,
`degods_com_id_list`). -/
structure AccountNode where
  address : String
  boredapeyachtclub_com_id_list : List Int
  complete_com_id_list : List Int
  degods_com_id_list : List Int
deriving DecidableEq, Repr

/-- Properties of an `OWNED` relationship.  `from_ts` and `until_ts` embed
the relationship properties named `from` and `until`; they are `Option`
because `ON CREATE` in `query1` leaves `from` unset on the closed edge. -/
structure OwnedProps where
  currently_owned : Bool
  from_ts : Option Int
  until_ts : Option Int
deriving DecidableEq, Repr

/-- An `OWNED` relationship from an account (by address) to an NFT. -/
structure OwnedEdge where
  account : String
  nft : NftRef
  props : OwnedProps
deriving DecidableEq, Repr

/-- The sale-only properties written by `query2_sale`. -/
structure SaleFields where
  transaction_value : PropVal
  transaction_token_symbol : String
  transaction_token_decimals : PropVal
  transaction_token : String
deriving DecidableEq, Repr

/-- A `TRANSACTED` relationship between two accounts. -/
structure TransactedEdge where
  from_address : String
  to_address : String
  event_type : String
  collection_name : String
  transaction_hash : String
  transaction_timestamp : Int
  identifier : String
  sale : Option SaleFields
deriving DecidableEq, Repr

/-- The slice of the Neo4j graph touched by `insert_new_trx_data`. -/
structure GraphState where
  accounts : List AccountNode
  nfts : List NftRef
  owned : List OwnedEdge
  transacted : List TransactedEdge
deriving DecidableEq, Repr

/-! ## `UpdateFunctionality.insert_new_trx_data` -/

/-- The literal `mock_data = [1,2,3]` from `insert_new_trx_data`. -/
def mock_data : List Int := [1, 2, 3]

/-- The node `query0` merges on: address plus the three mock arrays. -/
def mockAccountNode (addr : String) : AccountNode :=
  ⟨addr, mock_data, mock_data, mock_data⟩

/-- Embeds `MERGE (a:Account ...)` on address plus the three mock arrays:
complete_com_id_list: [1,2,3], degods_com_id_list: [1,2,3]})`: a Cypher
`MERGE` on a full property map is a no-op exactly when a node with all the
listed property values exists, and otherwise creates a node with exactly
those values. -/
def mergeAccountFullMap (accounts : List AccountNode) (addr : String) :
    List AccountNode :=
  if accounts.contains (mockAccountNode addr) then accounts
  else accounts ++ [mockAccountNode addr]

/-- Embeds `query0` of `insert_new_trx_data`: merge the `to` node, then the `from`
node (the two `MERGE` clauses run in that order). -/
def query0_run (accounts : List AccountNode) (e : EventData) :
    List AccountNode :=
  mergeAccountFullMap (mergeAccountFullMap accounts e.to_address)
    e.from_address

/-- Whether some `Account` node carries the given address. -/
def accountExists (accounts : List AccountNode) (addr : String) : Bool :=
  accounts.any (fun a => a.address == addr)

/-- Embeds `ON MATCH SET ro.currently_owned = false, ro.until = ts` for the
`from` edge (the `from` relationship property is left as it was). -/
def closeSet (ts : Int) (p : OwnedProps) : OwnedProps :=
  { p with currently_owned := false, until_ts := some ts }

/-- The `from` edge as created by `ON CREATE SET` (no `from` property). -/
def closedCreated (ts : Int) : OwnedProps :=
  ⟨false, none, some ts⟩

/-- The `to` edge props: both `ON CREATE` and `ON MATCH` set
`currently_owned = true`, `from = $timestamp`, `until = 0`. -/
def openProps (ts : Int) : OwnedProps :=
  ⟨true, some ts, some 0⟩

/-- Embeds `MERGE (acct)-[:OWNED]->(nft)` with `ON MATCH SET` / `ON CREATE SET`:
update every existing edge for the `(account, nft)` pair, or append a
freshly created one. -/
def mergeOwned (edges : List OwnedEdge) (acct : String) (nftr : NftRef)
    (onMatchSet : OwnedProps → OwnedProps) (onCreate : OwnedProps) :
    List OwnedEdge :=
  if edges.any (fun e => e.account == acct && e.nft == nftr) then
    edges.map (fun e =>
      if e.account == acct && e.nft == nftr then
        { e with props := onMatchSet e.props }
      else e)
  else edges ++ [⟨acct, nftr, onCreate⟩]

/-- Embeds `query1` of `insert_new_trx_data`: `MATCH` the `from` account and the
NFT node (zero matched rows make the whole query a no-op), `MERGE` the
`from` edge closed, then — piped through `WITH ro` — `MATCH` the `to`
account and `MERGE` its edge open. -/
def query1_run (accounts : List AccountNode) (nfts : List NftRef)
    (owned : List OwnedEdge) (e : EventData) : List OwnedEdge :=
  if accountExists accounts e.from_address && nfts.contains e.nft then
    let owned1 := mergeOwned owned e.from_address e.nft
      (closeSet e.event_timestamp) (closedCreated e.event_timestamp)
    if accountExists accounts e.to_address && nfts.contains e.nft then
      mergeOwned owned1 e.to_address e.nft
        (fun _ => openProps e.event_timestamp) (openProps e.event_timestamp)
    else owned1
  else owned

/-- The `TRANSACTED` edge written by `query2_transfer` / `query2_sale`,
with the documented "unknown" sentinels when `payment` is absent. -/
def transactedOf (e : EventData) : TransactedEdge :=
  if e.event_type == "transfer" then
    ⟨e.from_address, e.to_address, "Transfer", e.nft.collection,
      e.transaction, e.event_timestamp, e.nft.identifier, none⟩
  else
    match e.payment with
    | some p =>
        ⟨e.from_address, e.to_address, "Sale and Transfer",
          e.nft.collection, e.transaction, e.event_timestamp,
          e.nft.identifier,
          some ⟨.int p.quantity, p.symbol, .int p.decimals,
            p.token_address⟩⟩
    | none =>
        ⟨e.from_address, e.to_address, "Sale and Transfer",
          e.nft.collection, e.transaction, e.event_timestamp,
          e.nft.identifier, some ⟨.int 0, "unknown", .str "unknown",
            "unknown"⟩⟩

/-- Embeds `UpdateFunctionality.insert_new_trx_data`: run `query0`, then `query1`,
then the `CREATE`-based `query2` (transfer or sale variant). -/
def insert_new_trx_data (s : GraphState) (e : EventData) : GraphState :=
  let accounts := query0_run s.accounts e
  let owned := query1_run accounts s.nfts s.owned e
  let transacted :=
    if accountExists accounts e.from_address &&
        accountExists accounts e.to_address then
      s.transacted ++ [transactedOf e]
    else s.transacted
  ⟨accounts, s.nfts, owned, transacted⟩

/-- Number of `TRANSACTED` edges carrying a given
`(transaction_hash, identifier)` key. -/
def countTransactedKey (s : GraphState) (txHash ident : String) : Nat :=
  (s.transacted.filter
    (fun t => t.transaction_hash == txHash && t.identifier == ident)).length

/-- Number of `OWNED` edges of a given NFT with `currently_owned = true`. -/
def trueOwnedCount (owned : List OwnedEdge) (n : NftRef) : Nat :=
  (owned.filter (fun e => e.nft == n && e.props.currently_owned)).length

/-! ### Concrete inputs used to evaluate the mutation procedure -/

/-- The NFT `(identifier "1", collection "boredapeyachtclub")`. -/
def nft1 : NftRef := ⟨"1", "boredapeyachtclub"⟩

/-- A transfer event of `nft1` from `0xaaa` to `0xbbb`, hash `0xh1`. -/
def evT1 : EventData :=
  ⟨"transfer", "0xaaa", "0xbbb", nft1, "0xh1", 1000, none⟩

/-- A later transfer of `nft1` between two unrelated accounts `0xccc` and
`0xddd` (as after a missed intermediate event). -/
def evT2 : EventData :=
  ⟨"transfer", "0xccc", "0xddd", nft1, "0xh2", 2000, none⟩

/-- A graph holding only the `nft1` node. -/
def st1 : GraphState := ⟨[], [nft1], [], []⟩

/-- An `Account` node for address `0xA` whose first membership array was
overwritten by a detection run (it is no longer the mock `[1,2,3]`). -/
def acctA : AccountNode := ⟨"0xA", [5, 2, 3], mock_data, mock_data⟩

/-- A transfer event whose `to` address is `0xA`. -/
def evToA : EventData :=
  ⟨"transfer", "0xB", "0xA", nft1, "0xh3", 3000, none⟩

/-- Number of `Account` nodes carrying a given address. -/
def countAddress (accounts : List AccountNode) (addr : String) : Nat :=
  (accounts.filter (fun a => a.address == addr)).length

/-- No two `OWNED` edges share the `(account, nft)` key — the state
invariant Cypher `MERGE` maintains. -/
def NoDupKeys (owned : List OwnedEdge) : Prop :=
  owned.Pairwise (fun a b => ¬(a.account = b.account ∧ a.nft = b.nft))

/-! ## `UpdateFunctionality.get_data_from_opensea`

The entity walk is embedded with its Python variable scoping: `result` and
`status_code` are function-local and survive from one loop iteration to the
next, so a failed fetch leaves the values of the previous entity in place, and a
failure before any successful fetch leaves them unbound (a `NameError`
that propagates out of the whole loop). -/

/-- One page returned by `query_api.query_nft_trx_data`
(`asset_events`, `next`, and the HTTP status code). -/
structure FetchResult where
  asset_events : List EventData
  next : String
  status_code : Nat
deriving DecidableEq, Repr

/-- One element of `ids_list`: NFT identifier and its `updated_at`. -/
structure IdInfo where
  id : String
  updated_at : Int
deriving DecidableEq, Repr

/-- The event feed: given an entity id and an optional cursor, return a
page or raise. -/
def Feed : Type := String → Option String → Except String FetchResult

instance {ε α : Type} [DecidableEq ε] [DecidableEq α] :
    DecidableEq (Except ε α) := fun a b =>
  match a, b with
  | .ok x, .ok y =>
      if h : x = y then .isTrue (by rw [h]) else .isFalse (by simp [h])
  | .error x, .error y =>
      if h : x = y then .isTrue (by rw [h]) else .isFalse (by simp [h])
  | .ok _, .error _ => .isFalse (by simp)
  | .error _, .ok _ => .isFalse (by simp)

/-- Observable effects of a run: events handed to `insert_new_trx_data`
in order, the `updated_at` value of each NFT node, and every feed call made. -/
structure RunState where
  inserted : List EventData
  timestamps : List (String × Int)
  fetchLog : List (String × Option String)
deriving DecidableEq, Repr

/-- How the entity loop ended: normally, by an uncaught exception
(`NameError` on the unbound `result` / `status_code`), or by the unbounded
retry of a failing cursor fetch (fuel exhausted). -/
inductive RunOutcome where
  | completed
  | crashed (msg : String)
  | diverged
deriving DecidableEq, Repr

/-- Record one call to the feed. -/
def logFetch (st : RunState) (eid : String) (cur : Option String) :
    RunState :=
  { st with fetchLog := st.fetchLog ++ [(eid, cur)] }

/-- Hand a page of events to `insert_new_trx_data`. -/
def insertEvents (st : RunState) (evs : List EventData) : RunState :=
  { st with inserted := st.inserted ++ evs }

/-- Embeds `update_nft_node`: set `updated_at` of the matching NFT nodes. -/
def update_nft_node (ts : List (String × Int)) (ident : String) (t : Int) :
    List (String × Int) :=
  ts.map (fun p => if p.1 == ident then (p.1, t) else p)

/-- The while loop over the next cursor of `result`.  A feed error inside the loop is
caught and only logged, leaving `result` unchanged, so the same cursor is
retried without bound; exhausted fuel (`none`) models that divergence. -/
def while_pages (feed : Feed) (eid : String) (fuel : Nat) (st : RunState)
    (r : FetchResult) (sc : Nat) : Option (RunState × FetchResult × Nat) :=
  if r.next == "" then some (st, r, sc)
  else
    match fuel with
    | 0 => none
    | fuel' + 1 =>
      match feed eid (some r.next) with
      | .ok r' =>
          let st1 := logFetch st eid (some r.next)
          let st2 := if r'.asset_events.length != 0 then
              insertEvents st1 r'.asset_events
            else st1
          while_pages feed eid fuel' st2 r' r'.status_code
      | .error _ =>
          while_pages feed eid fuel' (logFetch st eid (some r.next)) r sc

/-- The `for id_info in ids_list` loop of `get_data_from_opensea`.  For a
due entity: try the first fetch (an error is logged); if the page is
non-empty, insert its events and `break` — ending the whole loop; otherwise
run the cursor loop on whatever `result` currently holds, then, if the
current `status_code` is 200, stamp the entity with `current_time`. -/
def entity_loop (feed : Feed) (current_time : Int) (fuel : Nat) :
    List IdInfo → RunState → Option FetchResult → Option Nat →
    RunState × RunOutcome
  | [], st, _, _ => (st, .completed)
  | id_info :: rest, st, lastR, lastS =>
    if current_time - id_info.updated_at ≥ 2 * 86400 then
      match feed id_info.id none with
      | .ok r =>
          let st1 := logFetch st id_info.id none
          if r.asset_events.length != 0 then
            (insertEvents st1 r.asset_events, .completed)
          else
            match while_pages feed id_info.id fuel st1 r r.status_code with
            | none => (st1, .diverged)
            | some (st2, rEnd, scEnd) =>
                let st3 := if scEnd == 200 then
                    { st2 with timestamps :=
                        (update_nft_node st2.timestamps id_info.id current_time) }
                  else st2
                entity_loop feed current_time fuel rest st3 (some rEnd)
                  (some scEnd)
      | .error _ =>
          let st1 := logFetch st id_info.id none
          match lastR, lastS with
          | some r0, some s0 =>
              match while_pages feed id_info.id fuel st1 r0 s0 with
              | none => (st1, .diverged)
              | some (st2, rEnd, scEnd) =>
                  let st3 := if scEnd == 200 then
                      { st2 with timestamps :=
                          (update_nft_node st2.timestamps id_info.id current_time) }
                    else st2
                  entity_loop feed current_time fuel rest st3 (some rEnd)
                    (some scEnd)
          | _, _ => (st1, .crashed "NameError")
    else entity_loop feed current_time fuel rest st lastR lastS

/-- Embeds `get_data_from_opensea`: walk the whole `ids_list` with initially
unbound `result` / `status_code`. -/
def get_data_from_opensea (feed : Feed) (current_time : Int)
    (ids : List IdInfo) (fuel : Nat) : RunState × RunOutcome :=
  entity_loop feed current_time fuel ids
    ⟨[], ids.map (fun i => (i.id, i.updated_at)), []⟩ none none

/-! ### Concrete feeds for the ingestion run -/

/-- Entity `e1`, never synchronized. -/
def e1 : IdInfo := ⟨"e1", 0⟩

/-- Entity `e2`, never synchronized. -/
def e2 : IdInfo := ⟨"e2", 0⟩

/-- The wall-clock time of the run (both entities are more than 2 days stale). -/
def Tnow : Int := 200000

/-- A feed where `e1` answers an empty page with HTTP 200 and the fetch
for `e2` raises. -/
def feedErr2 : Feed := fun eid cur =>
  if eid == "e1" && cur == none then .ok ⟨[], "", 200⟩
  else if eid == "e2" && cur == none then .error "boom"
  else .error "unexpected"

/-- A feed where the first page of `e1` is non-empty and has a further cursor
`c1`, and `e2` also has events. -/
def feedBreak : Feed := fun eid cur =>
  if eid == "e1" && cur == none then .ok ⟨[evT1], "c1", 200⟩
  else if eid == "e1" && cur == some "c1" then .ok ⟨[evT2], "", 200⟩
  else if eid == "e2" && cur == none then .ok ⟨[evToA], "", 200⟩
  else .error "unexpected"

/-- The run state at the start of a walk over `[e1, e2]`. -/
def st0 : RunState := ⟨[], [("e1", 0), ("e2", 0)], []⟩

/-- The first page `feedBreak` serves for `e1`. -/
def pageE1 : FetchResult := ⟨[evT1], "c1", 200⟩

/-! ## Projection lifecycle (`get_most_central_nodes`,
`update_project_graph`, `run_community_detection`)

The projection directory of the Graph Store is embedded as the list of
projection names `gds.graph.list()` returns. -/

/-- Embeds `CALL gds.graph.drop(name)`. -/
def drop_graph (dir : List String) (name : String) : List String :=
  dir.filter (fun g => g != name)

/-- The pre-create cleanup in `get_most_central_nodes`: list the directory
and drop `centralityGraph` if present. -/
def centrality_cleanup (dir : List String) : List String :=
  if dir.contains "centralityGraph" then drop_graph dir "centralityGraph"
  else dir

/-- Projection-directory protocol of `get_most_central_nodes`: cleanup,
create, run the degree-centrality query (which may raise), drop.  There is
no `try`/`finally`, so an exception propagates before the drop; the error
value carries the directory as left behind. -/
def get_most_central_nodes_dirs (dir : List String) (algRaises : Bool) :
    Except (List String) (List String) :=
  let dir1 := centrality_cleanup dir
  let dir2 := dir1 ++ ["centralityGraph"]
  if algRaises then .error dir2
  else .ok (drop_graph dir2 "centralityGraph")

/-- The leading loop of `update_project_graph`: drop every projection the
directory lists. -/
def drop_all (dir : List String) : List String :=
  dir.foldl (fun acc g => drop_graph acc g) dir

/-- The three scope projections created per collection. -/
def projection_names (collection_name : String) : List String :=
  [collection_name ++ "_owned", collection_name ++ "_trx",
    collection_name ++ "_owned_trx"]

/-- Embeds `update_project_graph` (and its `_complete` variant): drop all listed
projections, then create the three scope projections. -/
def update_project_graph_dirs (dir : List String)
    (collection_name : String) : List String :=
  drop_all dir ++ projection_names collection_name

/-- Embeds `run_community_detection`: project, run the detection passes (which
perform no projection-directory operation), and return — no drop follows
the detection, so the directory at return is the projected one. -/
def run_community_detection_dirs (dir : List String)
    (collection_name : String) : List String :=
  let projected := update_project_graph_dirs dir collection_name
  projected

/-! ### Interleaving model for two concurrent `get_most_central_nodes` -/

/-- The projection-directory steps one `get_most_central_nodes` call
performs, in order: the list-and-drop check, the create, the algorithm
execution, the drop. -/
inductive PStep where
  | checkDrop
  | create
  | compute
  | drop
deriving DecidableEq, Repr

/-- The step sequence of one call. -/
def centralitySteps : List PStep := [.checkDrop, .create, .compute, .drop]

/-- Interleave two step sequences under a schedule (`true` = first caller
moves next); an exhausted side lets the schedule entry lapse. -/
def interleave : List Bool → List PStep → List PStep → List (Bool × PStep)
  | [], _, _ => []
  | t :: sch, s0, s1 =>
    if t then
      match s0 with
      | [] => interleave sch [] s1
      | p :: s0' => (true, p) :: interleave sch s0' s1
    else
      match s1 with
      | [] => interleave sch s0 []
      | p :: s1' => (false, p) :: interleave sch s0 s1'

/-- A schedule that runs both four-step callers to completion. -/
def validSchedule (sch : List Bool) : Bool :=
  sch.count true == 4 && sch.count false == 4

/-- Directory plus a flag recording whether some create executed while a
projection of the same name already existed (the race the create call of
the Graph Store rejects). -/
structure ExecState where
  dir : List String
  createWhileExists : Bool
deriving DecidableEq, Repr

/-- Effect of one step on the shared directory.  No lock exists anywhere in
the source, so steps of the two callers act directly on the shared state in
schedule order. -/
def execStep (st : ExecState) (s : PStep) : ExecState :=
  match s with
  | .checkDrop => { st with dir := centrality_cleanup st.dir }
  | .create =>
      ⟨st.dir ++ ["centralityGraph"],
        st.createWhileExists || st.dir.contains "centralityGraph"⟩
  | .compute => st
  | .drop => { st with dir := drop_graph st.dir "centralityGraph" }

/-- Run an interleaved trace. -/
def execTrace (trace : List (Bool × PStep)) (st : ExecState) : ExecState :=
  trace.foldl (fun a p => execStep a p.2) st

/-- Position of a given caller step in the trace. -/
def stepPos (trace : List (Bool × PStep)) (who : Bool) (s : PStep) :
    Option Nat :=
  trace.findIdx? (fun p => p.1 == who && p.2 == s)

/-- An overlapping schedule: the two callers alternate step by step. -/
def altSchedule : List Bool :=
  [true, false, true, false, true, false, true, false]

/-- The non-overlapping schedule: caller one finishes before caller two
starts. -/
def seqSchedule : List Bool :=
  [true, true, true, true, false, false, false, false]

/-! ## Community membership writer
(`get_scope`, `update_community_detection`, `update_community_id_info`) -/

/-- Embeds the Python method `str.upper()` at the character-list level. -/
def strUpper (s : String) : String := ⟨s.data.map Char.toUpper⟩

/-- Embeds `CommunityFunctionality.get_scope`: map a scope label to the membership
array index, raising `NotExistsException` otherwise. -/
def get_scope (scope : String) : Except String Nat :=
  if strUpper scope == "OWNERSHIP" then .ok 0
  else if strUpper scope == "TRANSACTION" then .ok 1
  else if strUpper scope == "ALL" then .ok 2
  else .error ("scope " ++ scope ++ " does not exists")

/-- One community as streamed by `gds.louvain.stream`, already grouped:
its id and its member node ids. -/
structure Community where
  communityId : Int
  members : List Nat
deriving DecidableEq, Repr

/-- The comparison realizing `ORDER BY size(nodes) DESC`. -/
def sizeDescBool (a b : Community) : Bool :=
  decide (b.members.length ≤ a.members.length)

/-- The Louvain result query of `update_community_detection`:
`ORDER BY size(nodes) DESC`, then `LIMIT limit` appended only when
`limit != 0`. -/
def community_query (cs : List Community) (limit : Nat) : List Community :=
  let sorted := cs.mergeSort sizeDescBool
  if limit != 0 then sorted.take limit else sorted

/-- Embeds `update_nodes_com_property`: write the community id into index `scope`
of the per-collection membership array of every member node. -/
def update_nodes_com_property (store : Nat → List Int) (communityId : Int)
    (nodes : List Nat) (scope : Nat) : Nat → List Int :=
  fun n => if nodes.contains n then (store n).set scope communityId
    else store n

/-- One scope pass of `update_community_detection`: iterate over the
returned communities, writing member slots and accumulating the id list. -/
def run_scope_pass (store : Nat → List Int) (result : List Community)
    (scope : Nat) : (Nat → List Int) × List Int :=
  result.foldl
    (fun acc r =>
      (update_nodes_com_property acc.1 r.communityId r.members scope,
        acc.2 ++ [r.communityId]))
    (store, [])

/-- Embeds `update_community_id_info`: replace row `scope` of the 2-D
summary array of the collection. -/
def update_community_id_info (info : List (List Int)) (idList : List Int)
    (scope : Nat) : List (List Int) :=
  info.set scope idList

/-- Embeds `update_community_detection`: the three scope passes, in source order —
`_owned` into index 0, `_trx` into index 1, `_owned_trx` into index 2 —
each followed by its summary update. -/
def update_community_detection (limit : Nat)
    (louvain : String → List Community) (collection_name : String)
    (store : Nat → List Int) (info : List (List Int)) :
    (Nat → List Int) × List (List Int) :=
  let r0 := community_query (louvain (collection_name ++ "_owned")) limit
  let p0 := run_scope_pass store r0 0
  let info0 := update_community_id_info info p0.2 0
  let r1 := community_query (louvain (collection_name ++ "_trx")) limit
  let p1 := run_scope_pass p0.1 r1 1
  let info1 := update_community_id_info info0 p1.2 1
  let r2 := community_query (louvain (collection_name ++ "_owned_trx"))
    limit
  let p2 := run_scope_pass p1.1 r2 2
  let info2 := update_community_id_info info1 p2.2 2
  (p2.1, info2)

/-- A Louvain result with one single-member community per scope projection
of the `boredapeyachtclub` collection. -/
def singletonLouvain (a b c : Int) (n : Nat) : String → List Community :=
  fun s =>
    if s == "boredapeyachtclub_owned" then [⟨a, [n]⟩]
    else if s == "boredapeyachtclub_trx" then [⟨b, [n]⟩]
    else if s == "boredapeyachtclub_owned_trx" then [⟨c, [n]⟩]
    else []

/-! ## `get_update_frequency` and `CommunityFunctionality.get_collection` -/

/-- Embeds `get_processed_collection_name` from `update_functionality.py`. -/
def get_processed_collection_name (collection_name : String) : String :=
  if collection_name == "degods-eth" then "degods"
  else if collection_name == "boredapeyachtclub" then "boredapeyachtclub"
  else if collection_name == "complete" then "complete"
  else collection_name

/-- An `Update_Info` node. -/
structure UpdateInfoNode where
  collection_name : String
  update_frequency : Int
deriving DecidableEq, Repr

/-- Embeds `UpdateFunctionality.get_update_frequency`: return the frequency
of the matching node, or the literal `86000` when the query returns no row. -/
def get_update_frequency (db : List UpdateInfoNode)
    (collection_name : String) : Int :=
  match db.filter (fun n =>
      n.collection_name == get_processed_collection_name collection_name)
    with
  | r :: _ => r.update_frequency
  | [] => 86000

/-- Embeds `CommunityFunctionality.get_collection`: resolve the collection list or
raise `NotExistsException`. -/
def cf_get_collection (collection : List String) : Except String String :=
  let cu := collection.map (fun s => strUpper s)
  if cu == ["BOREDAPES"] then .ok "boredapeyachtclub"
  else if cu == ["DEGODS"] then .ok "degods"
  else if cu.length == 2 && cu.contains "BOREDAPES" &&
      cu.contains "DEGODS" then .ok "complete"
  else .error ("Collection " ++ String.intercalate "," collection ++
    " does not exist")

/-! # Theorems -/

/-! ## Helper lemmas about `OWNED`-edge merging -/

/-- A pairwise-related list has at most one element satisfying a predicate
that forbids the relation between any two of its satisfiers. -/
theorem length_filter_le_one_of_pairwise {α : Type} {R : α → α → Prop}
    {p : α → Bool} {l : List α} (h : l.Pairwise R)
    (hp : ∀ a ∈ l, ∀ b ∈ l, p a = true → p b = true → ¬ R a b) :
    (l.filter p).length ≤ 1 := by
  rcases hf : l.filter p with _ | ⟨a, _ | ⟨b, t⟩⟩
  · simp
  · simp
  · exfalso
    have hpf : (l.filter p).Pairwise R :=
      List.Pairwise.sublist (List.filter_sublist l) h
    rw [hf] at hpf
    have hR : R a b := (List.pairwise_cons.mp hpf).1 b (by simp)
    have ha : a ∈ l.filter p := by rw [hf]; simp
    have hb : b ∈ l.filter p := by rw [hf]; simp
    have ha' := List.mem_filter.mp ha
    have hb' := List.mem_filter.mp hb
    exact hp a ha'.1 b hb'.1 ha'.2 hb'.2 hR

/-- If every `currently_owned` edge of the NFT belongs to one fixed
account, a duplicate-free edge list has at most one such edge. -/
theorem trueOwnedCount_le_one_of_allKey {l : List OwnedEdge} {n : NftRef}
    {x : String} (hdup : NoDupKeys l)
    (hkey : ∀ ed ∈ l, ed.nft = n → ed.props.currently_owned = true →
      ed.account = x) :
    trueOwnedCount l n ≤ 1 := by
  refine length_filter_le_one_of_pairwise hdup ?_
  intro a ha b hb pa pb hR
  rw [Bool.and_eq_true, beq_iff_eq] at pa pb
  apply hR
  have hax := hkey a ha pa.1 pa.2
  have hbx := hkey b hb pb.1 pb.2
  exact ⟨by rw [hax, hbx], by rw [pa.1, pb.1]⟩

/-- Merging preserves duplicate-freedom of the `(account, nft)` keys. -/
theorem noDupKeys_mergeOwned {owned : List OwnedEdge} {acct : String}
    {nftr : NftRef} (f : OwnedProps → OwnedProps) (c : OwnedProps)
    (h : NoDupKeys owned) :
    NoDupKeys (mergeOwned owned acct nftr f c) := by
  unfold mergeOwned NoDupKeys
  split
  · rw [List.pairwise_map]
    have hacc : ∀ x : OwnedEdge,
        (if x.account == acct && x.nft == nftr then
          { x with props := f x.props } else x).account = x.account := by
      intro x; split <;> rfl
    have hnft : ∀ x : OwnedEdge,
        (if x.account == acct && x.nft == nftr then
          { x with props := f x.props } else x).nft = x.nft := by
      intro x; split <;> rfl
    refine List.Pairwise.imp ?_ h
    intro a b hab hcon
    rw [hacc a, hacc b, hnft a, hnft b] at hcon
    exact hab hcon
  · rename_i hnex
    rw [List.pairwise_append]
    refine ⟨h, List.pairwise_singleton _ _, ?_⟩
    intro x hx y hy
    have hy' : y = ⟨acct, nftr, c⟩ := by simpa using hy
    subst hy'
    intro hcon
    apply hnex
    rw [List.any_eq_true]
    exact ⟨x, hx, by simp [hcon.1, hcon.2]⟩

/-- After the closing merge of `query1`, no edge of the event NFT is
currently owned — provided every previously-true edge belonged to the
`from` address of the event. -/
theorem allFalse_after_close {owned : List OwnedEdge} {e : EventData}
    (hchain : ∀ ed ∈ owned, ed.nft = e.nft →
      ed.props.currently_owned = true → ed.account = e.from_address) :
    ∀ ed ∈ mergeOwned owned e.from_address e.nft
        (closeSet e.event_timestamp) (closedCreated e.event_timestamp),
      ed.nft = e.nft → ed.props.currently_owned = false := by
  unfold mergeOwned
  split
  · intro ed hed hnft
    rw [List.mem_map] at hed
    obtain ⟨x, hx, rfl⟩ := hed
    by_cases hk : (x.account == e.from_address && x.nft == e.nft) = true
    · rw [if_pos hk]; rfl
    · rw [if_neg hk]
      rw [if_neg hk] at hnft
      by_contra hne
      have ht : x.props.currently_owned = true := by
        revert hne; cases x.props.currently_owned <;> simp
      have hacc := hchain x hx hnft ht
      apply hk
      simp [hacc, hnft]
  · rename_i hnex
    intro ed hed hnft
    rw [List.mem_append] at hed
    rcases hed with hed | hed
    · by_contra hne
      have ht : ed.props.currently_owned = true := by
        revert hne; cases ed.props.currently_owned <;> simp
      have hacc := hchain ed hed hnft ht
      apply hnex
      rw [List.any_eq_true]
      exact ⟨ed, hed, by simp [hacc, hnft]⟩
    · have : ed = ⟨e.from_address, e.nft, closedCreated e.event_timestamp⟩ :=
        by simpa using hed
      subst this
      rfl

/-- After the opening merge of `query1`, every currently-owned edge of the
NFT belongs to the `to` address of the event — provided none was currently
owned before. -/
theorem allKeyTo_after_open {l : List OwnedEdge} {toAddr : String}
    {n : NftRef} {ts : Int}
    (hall : ∀ ed ∈ l, ed.nft = n → ed.props.currently_owned = false) :
    ∀ ed ∈ mergeOwned l toAddr n (fun _ => openProps ts) (openProps ts),
      ed.nft = n → ed.props.currently_owned = true → ed.account = toAddr := by
  unfold mergeOwned
  split
  · intro ed hed hnft htrue
    rw [List.mem_map] at hed
    obtain ⟨x, hx, rfl⟩ := hed
    by_cases hk : (x.account == toAddr && x.nft == n) = true
    · rw [if_pos hk]
      rw [Bool.and_eq_true, beq_iff_eq] at hk
      exact hk.1
    · rw [if_neg hk] at hnft htrue ⊢
      have := hall x hx hnft
      rw [this] at htrue
      exact absurd htrue (by simp)
  · intro ed hed hnft htrue
    rw [List.mem_append] at hed
    rcases hed with hed | hed
    · have := hall ed hed hnft
      rw [this] at htrue
      exact absurd htrue (by simp)
    · have : ed = ⟨toAddr, n, openProps ts⟩ := by simpa using hed
      subst this
      rfl

/-- Embedded `query1` preserves the ownership-succession bound when every
currently-owned edge of the event NFT belongs to the `from` address of
the event. -/
theorem query1_run_succession (accounts : List AccountNode)
    (nfts : List NftRef) (owned : List OwnedEdge) (e : EventData)
    (hdup : NoDupKeys owned)
    (hchain : ∀ ed ∈ owned, ed.nft = e.nft →
      ed.props.currently_owned = true → ed.account = e.from_address) :
    trueOwnedCount (query1_run accounts nfts owned e) e.nft ≤ 1 := by
  unfold query1_run
  split
  · have hall := allFalse_after_close hchain
    have hdup1 : NoDupKeys (mergeOwned owned e.from_address e.nft
        (closeSet e.event_timestamp) (closedCreated e.event_timestamp)) :=
      noDupKeys_mergeOwned _ _ hdup
    split
    · have hdup2 := @noDupKeys_mergeOwned _ e.to_address e.nft
        (fun _ => openProps e.event_timestamp)
        (openProps e.event_timestamp) hdup1
      exact trueOwnedCount_le_one_of_allKey hdup2 (allKeyTo_after_open hall)
    · refine @trueOwnedCount_le_one_of_allKey _ _ e.to_address hdup1 ?_
      intro ed hed hnft htrue
      exact absurd htrue (by simp [hall ed hed hnft])
  · exact trueOwnedCount_le_one_of_allKey hdup hchain

/-! ## Claim C1 -/

/-- Claim C1: re-applying the same event (same txHash and identifier) is
claimed to leave exactly one TransactionEdge.  Evaluating the embedded
`insert_new_trx_data` twice on the same transfer event, starting from a
graph holding only the NFT node, yields two `TRANSACTED` edges for the key
`("0xh1", "1")`: the source appends with Cypher `CREATE`, not a
merge-by-key, so re-running an overlapping feed window duplicates the
edge. -/
theorem claim_C1_transacted_not_idempotent :
    countTransactedKey
      (insert_new_trx_data (insert_new_trx_data st1 evT1) evT1)
      "0xh1" "1" = 2 := by decide

/-! ## Claim C2 -/

/-- Claim C2 (counterexample): the mutation procedure closes the `from`
OWNED edge of the `from` address, not the edge of whichever account currently holds
the flag.  Applying, from an empty graph, a transfer `0xaaa → 0xbbb` and
then (after a missed event) a transfer `0xccc → 0xddd` of the same NFT
leaves two OWNED edges with `currently_owned = true` (`0xbbb` and
`0xddd`), refuting "at most one OWNED edge incident to that NFT has
currently_owned = true at any time". -/
theorem claim_C2_counterexample :
    trueOwnedCount
      (insert_new_trx_data (insert_new_trx_data st1 evT1) evT2).owned
      nft1 = 2 := by decide

/-- Claim C2 (amended): each applied event closes the OWNED edge of the
`from` address of the event (creating an already-closed one if absent) and
opens the edge of the `to` address; consequently at most one OWNED edge of the NFT
has `currently_owned = true` after the event only under the hypothesis
that every currently-owned edge of that NFT already belongs to the
`from` address of the event (no missed or out-of-order events). -/
theorem claim_C2_amended_succession (s : GraphState) (e : EventData)
    (hdup : NoDupKeys s.owned)
    (hchain : ∀ ed ∈ s.owned, ed.nft = e.nft →
      ed.props.currently_owned = true → ed.account = e.from_address) :
    trueOwnedCount (insert_new_trx_data s e).owned e.nft ≤ 1 := by
  have h := query1_run_succession (query0_run s.accounts e) s.nfts s.owned
    e hdup hchain
  simpa [insert_new_trx_data] using h

/-- Witness for the amended claim C2, at a state where `0xaaa` currently
owns the NFT and the `from` address of the event is `0xaaa`. -/
theorem claim_C2_amended_succession_witness :
    trueOwnedCount
      (insert_new_trx_data
        ⟨[], [nft1], [⟨"0xaaa", nft1, ⟨true, some 10, some 0⟩⟩], []⟩
        evT1).owned evT1.nft ≤ 1 :=
  claim_C2_amended_succession
    ⟨[], [nft1], [⟨"0xaaa", nft1, ⟨true, some 10, some 0⟩⟩], []⟩ evT1
    (by unfold NoDupKeys; decide) (by decide)

/-! ## Claim C3 -/

/-- Claim C3 (counterexample): with two due entities where the first
page of `e1` is non-empty and carries a further cursor `c1`, the run inserts only
that first page, makes no further feed call (the log holds only
`("e1", none)`: cursor `c1` is never followed and `e2` is never fetched),
and returns — refuting both "walks ... until the feed reports an empty
next cursor" and "does not terminate the enumeration of the remaining due
entities". -/
theorem claim_C3_counterexample :
    get_data_from_opensea feedBreak Tnow [e1, e2] 10 =
      (⟨[evT1], [("e1", 0), ("e2", 0)], [("e1", none)]⟩, .completed) ∧
    feedBreak "e1" (some "c1") = .ok ⟨[evT2], "", 200⟩ := by decide

/-- Claim C3 (amended): for each due entity the run fetches the first
page; whenever that page is non-empty the run applies exactly its events
and returns at once — the `break` ends the whole entity loop, so the next
cursor is not followed and no remaining entity is enumerated.  Pagination
drains the cursor (and the loop proceeds to later entities) only for
entities whose first page is empty. -/
theorem claim_C3_amended_first_page_break (feed : Feed) (T : Int)
    (fuel : Nat) (i : IdInfo) (rest : List IdInfo) (st : RunState)
    (lastR : Option FetchResult) (lastS : Option Nat) (r : FetchResult)
    (hdue : T - i.updated_at ≥ 2 * 86400)
    (hfetch : feed i.id none = .ok r)
    (hne : r.asset_events ≠ []) :
    entity_loop feed T fuel (i :: rest) st lastR lastS =
      (insertEvents (logFetch st i.id none) r.asset_events, .completed) := by
  have hlen : (r.asset_events.length != 0) = true := by
    simp [hne]
  simp only [entity_loop]
  rw [if_pos hdue, hfetch]
  simp [hlen]

/-- Witness for the amended claim C3, at the concrete two-entity feed. -/
theorem claim_C3_amended_first_page_break_witness :
    entity_loop feedBreak Tnow 10 [e1, e2] st0 none none =
      (insertEvents (logFetch st0 e1.id none) pageE1.asset_events,
        .completed) :=
  claim_C3_amended_first_page_break feedBreak Tnow 10 e1 [e2] st0 none
    none pageE1 (by decide) (by decide) (by decide)

/-! ## Claim C4 -/

/-- Claim C4: a feed error for one entity is claimed to leave that
last-synchronized value of that entity unchanged.  Evaluating the embedded run
on `[e1, e2]` where `e1` answers an empty page with HTTP 200 and the fetch
for `e2` raises: the function-local `result` and `status_code` still hold
the values from `e1` when the exception for `e2` is logged, so the
`if status_code == 200` check passes and the `updated_at` of `e2` is set to
the run time `Tnow` despite the error. -/
theorem claim_C4_stale_status_updates_failed_entity :
    get_data_from_opensea feedErr2 Tnow [e1, e2] 10 =
      (⟨[], [("e1", Tnow), ("e2", Tnow)], [("e1", none), ("e2", none)]⟩,
        .completed) := by decide

/-! ## Claim C5 -/

/-- Claim C5 (counterexample): the account upsert is claimed to be keyed
by address alone.  Starting from a graph whose only account node has
address `0xA` but a membership array `[5,2,3]` written by a detection run,
applying the upsert for an event with `to = 0xA` creates a second
`Account` node with the same address: the Cypher `MERGE` matches on the
full property map, which includes the three mock arrays `[1,2,3]`. -/
theorem claim_C5_counterexample :
    countAddress (query0_run [acctA] evToA) "0xA" = 2 := by decide

/-- Claim C5 (amended): the account upsert of `insert_new_trx_data` is
keyed by the full property map — the address together with the three
membership arrays fixed at the mock value `[1,2,3]`.  It is a no-op
exactly when a node with that address and those exact arrays exists;
otherwise it appends a new node, so an address already present on a node
whose arrays differ from `[1,2,3]` gets duplicated. -/
theorem claim_C5_amended_merge_full_map (accounts : List AccountNode)
    (addr : String) :
    (mockAccountNode addr ∈ accounts →
      mergeAccountFullMap accounts addr = accounts) ∧
    (mockAccountNode addr ∉ accounts →
      mergeAccountFullMap accounts addr =
        accounts ++ [mockAccountNode addr]) ∧
    (mockAccountNode addr ∉ accounts →
      countAddress (mergeAccountFullMap accounts addr) addr =
        countAddress accounts addr + 1) := by
  refine ⟨?_, ?_, ?_⟩
  · intro h
    simp [mergeAccountFullMap, h]
  · intro h
    simp [mergeAccountFullMap, h]
  · intro h
    have hc : ¬ (accounts.contains (mockAccountNode addr) = true) := by
      simpa using h
    unfold mergeAccountFullMap
    rw [if_neg hc]
    simp [countAddress, List.filter_append, mockAccountNode]

/-- Witness for the amended claim C5 at the concrete duplicated state. -/
theorem claim_C5_amended_merge_full_map_witness :
    mergeAccountFullMap [acctA] "0xA" = [acctA] ++ [mockAccountNode "0xA"] ∧
    countAddress (mergeAccountFullMap [acctA] "0xA") "0xA" =
      countAddress [acctA] "0xA" + 1 :=
  ⟨(claim_C5_amended_merge_full_map [acctA] "0xA").2.1 (by decide),
    (claim_C5_amended_merge_full_map [acctA] "0xA").2.2 (by decide)⟩

/-! ## Claim C6 -/

/-- Folding `gds.graph.drop` over a name list removes exactly those
names. -/
theorem foldl_drop_graph (l acc : List String) :
    l.foldl (fun a g => drop_graph a g) acc =
      acc.filter (fun g => !(l.contains g)) := by
  induction l generalizing acc with
  | nil => simp
  | cons a l ih =>
    rw [List.foldl_cons, ih]
    unfold drop_graph
    rw [List.filter_filter]
    apply List.filter_congr
    intro x _
    by_cases hxa : x = a
    · subst hxa
      simp
    · simp [hxa, Bool.and_comm]

/-- The leading drop loop of `update_project_graph` empties the
projection directory. -/
theorem drop_all_eq_nil (dir : List String) : drop_all dir = [] := by
  unfold drop_all
  rw [foldl_drop_graph, List.filter_eq_nil_iff]
  intro g hg
  simp [hg]

/-- Claim C6 (counterexample): a community-detection run started on an
empty projection directory returns with its three projections still
listed (they are only removed by the pre-create cleanup of the next run), and
a centrality run whose algorithm execution raises returns with
`centralityGraph` still listed — the projection outlives the operation on
the community path and on the centrality failure path. -/
theorem claim_C6_counterexample :
    run_community_detection_dirs [] "boredapeyachtclub" =
      ["boredapeyachtclub_owned", "boredapeyachtclub_trx",
        "boredapeyachtclub_owned_trx"] ∧
    get_most_central_nodes_dirs ["boredapeyachtclub_owned"] true =
      .error ["boredapeyachtclub_owned", "centralityGraph"] := by decide

/-- Claim C6 (amended): every analytical operation queries the projection
directory and clears pre-existing projections before creating
(`get_most_central_nodes` drops the one named `centralityGraph`;
`update_project_graph` drops every listed projection), and the centrality
run drops its own projection before returning on the success path; but on
the centrality failure path the projection is left in the directory, and
a community-detection run returns with its three projections still
listed. -/
theorem claim_C6_amended_lifecycle (dir : List String) (cn : String) :
    ("centralityGraph" ∉ centrality_cleanup dir) ∧
    (∃ res, get_most_central_nodes_dirs dir false = .ok res ∧
      "centralityGraph" ∉ res) ∧
    (∃ dfail, get_most_central_nodes_dirs dir true = .error dfail ∧
      "centralityGraph" ∈ dfail) ∧
    (drop_all dir = []) ∧
    (run_community_detection_dirs dir cn = projection_names cn) := by
  have hclean : "centralityGraph" ∉ centrality_cleanup dir := by
    unfold centrality_cleanup
    split
    · unfold drop_graph
      intro hmem
      rcases List.mem_filter.mp hmem with ⟨_, hne⟩
      simp at hne
    · rename_i hc
      intro hmem
      exact hc (by simp [hmem])
  refine ⟨hclean, ?_, ?_, drop_all_eq_nil dir, ?_⟩
  · refine ⟨drop_graph (centrality_cleanup dir ++ ["centralityGraph"])
      "centralityGraph", rfl, ?_⟩
    unfold drop_graph
    intro hmem
    rcases List.mem_filter.mp hmem with ⟨_, hne⟩
    simp at hne
  · exact ⟨centrality_cleanup dir ++ ["centralityGraph"], rfl, by simp⟩
  · unfold run_community_detection_dirs update_project_graph_dirs
    rw [drop_all_eq_nil]
    rfl

/-- Witness for the amended claim C6 at a directory holding a stale
`centralityGraph`. -/
theorem claim_C6_amended_lifecycle_witness :
    ("centralityGraph" ∉ centrality_cleanup ["centralityGraph"]) ∧
    (drop_all ["centralityGraph"] = []) ∧
    (run_community_detection_dirs ["centralityGraph"] "degods-eth" =
      projection_names "degods-eth") :=
  ⟨(claim_C6_amended_lifecycle ["centralityGraph"] "degods-eth").1,
    (claim_C6_amended_lifecycle ["centralityGraph"] "degods-eth").2.2.2.1,
    (claim_C6_amended_lifecycle ["centralityGraph"] "degods-eth").2.2.2.2⟩

/-! ## Claim C7 -/

/-- Claim C7 (counterexample): the claim asserts mutual exclusion — in
every execution the create of the second caller happens after the drop of
the first caller.  No lock exists in the source, and under the valid
alternating schedule the create of the second caller sits at trace index 3
while the drop of the first caller sits at index 6, refuting the claim. -/
theorem claim_C7_counterexample :
    ¬ (∀ sch : List Bool, validSchedule sch = true →
        ∀ i j,
          stepPos (interleave sch centralitySteps centralitySteps) false
            PStep.create = some i →
          stepPos (interleave sch centralitySteps centralitySteps) true
            PStep.drop = some j →
          j < i) := by
  intro h
  have h36 := h altSchedule (by decide) 3 6 (by decide) (by decide)
  exact absurd h36 (by decide)

/-- Claim C7 (amended): there is no lock, so the projection-directory
steps of the two callers interleave arbitrarily.  Under the alternating
schedule the create of the second caller (index 3) precedes the drop of
the first caller (index 6) and executes while the projection of the first
caller exists (the create-clash flag is set); only under the
non-overlapping sequential schedule does the drop of the first caller
(index 3) precede the create of the second caller (index 5), with no
create clash. -/
theorem claim_C7_amended_no_lock :
    (validSchedule altSchedule = true ∧
      stepPos (interleave altSchedule centralitySteps centralitySteps)
        false PStep.create = some 3 ∧
      stepPos (interleave altSchedule centralitySteps centralitySteps)
        true PStep.drop = some 6 ∧
      (execTrace (interleave altSchedule centralitySteps centralitySteps)
        ⟨[], false⟩).createWhileExists = true) ∧
    (validSchedule seqSchedule = true ∧
      stepPos (interleave seqSchedule centralitySteps centralitySteps)
        true PStep.drop = some 3 ∧
      stepPos (interleave seqSchedule centralitySteps centralitySteps)
        false PStep.create = some 5 ∧
      (execTrace (interleave seqSchedule centralitySteps centralitySteps)
        ⟨[], false⟩).createWhileExists = false) := by decide

/-! ## Claim C8 -/

/-- Claim C8: scope "ownership" / "transaction" / "all" maps to membership
array index 0 / 1 / 2 (case-insensitively), any other scope label is
rejected with the does-not-exist error rather than mapped; and a detection
run writes the community ids of the `_owned` / `_trx` / `_owned_trx` pass
into index 0 / 1 / 2 of the membership array of each member node. -/
theorem claim_C8_scope_mapping :
    (get_scope "ownership" = .ok 0 ∧ get_scope "transaction" = .ok 1 ∧
      get_scope "all" = .ok 2) ∧
    (∀ s : String, strUpper s ≠ "OWNERSHIP" →
      strUpper s ≠ "TRANSACTION" → strUpper s ≠ "ALL" →
      get_scope s = .error ("scope " ++ s ++ " does not exists")) ∧
    (∀ (a b c : Int) (n : Nat) (store : Nat → List Int)
      (info : List (List Int)) (x y z : Int), store n = [x, y, z] →
      (update_community_detection 0 (singletonLouvain a b c n)
        "boredapeyachtclub" store info).1 n = [a, b, c]) := by
  refine ⟨by decide, ?_, ?_⟩
  · intro s h1 h2 h3
    have b1 : (strUpper s == "OWNERSHIP") = false := by simp [h1]
    have b2 : (strUpper s == "TRANSACTION") = false := by simp [h2]
    have b3 : (strUpper s == "ALL") = false := by simp [h3]
    simp [get_scope, b1, b2, b3]
  · intro a b c n store info x y z h
    have h0 : singletonLouvain a b c n ("boredapeyachtclub" ++ "_owned") =
        [⟨a, [n]⟩] := by
      unfold singletonLouvain
      rw [if_pos (by decide)]
    have h1 : singletonLouvain a b c n ("boredapeyachtclub" ++ "_trx") =
        [⟨b, [n]⟩] := by
      unfold singletonLouvain
      rw [if_neg (by decide), if_pos (by decide)]
    have h2 : singletonLouvain a b c n
        ("boredapeyachtclub" ++ "_owned_trx") = [⟨c, [n]⟩] := by
      unfold singletonLouvain
      rw [if_neg (by decide), if_neg (by decide), if_pos (by decide)]
    simp only [update_community_detection, h0, h1, h2]
    simp [community_query, List.mergeSort, run_scope_pass,
      update_nodes_com_property, h]

/-- Witness for claim C8: an unknown scope label is rejected, and a
concrete three-pass detection run writes `[7, 8, 9]` into the membership
array of node 5. -/
theorem claim_C8_scope_mapping_witness :
    get_scope "badscope" =
      .error ("scope " ++ "badscope" ++ " does not exists") ∧
    (update_community_detection 0 (singletonLouvain 7 8 9 5)
      "boredapeyachtclub" (fun _ => [0, 0, 0]) []).1 5 = [7, 8, 9] :=
  ⟨claim_C8_scope_mapping.2.1 "badscope" (by decide) (by decide)
      (by decide),
    claim_C8_scope_mapping.2.2 7 8 9 5 (fun _ => [0, 0, 0]) [] 0 0 0 rfl⟩

/-! ## Claim C9 -/

/-- The id list a scope pass accumulates is the community ids of its
input, in order. -/
theorem run_scope_pass_ids_aux (rs : List Community)
    (store : Nat → List Int) (acc : List Int) (scope : Nat) :
    (rs.foldl
      (fun p r =>
        (update_nodes_com_property p.1 r.communityId r.members scope,
          p.2 ++ [r.communityId]))
      (store, acc)).2 = acc ++ rs.map (fun c => c.communityId) := by
  induction rs generalizing store acc with
  | nil => simp
  | cons r rs ih =>
    rw [List.foldl_cons, ih]
    simp

/-- The comparison `sizeDescBool` is transitive. -/
theorem sizeDescBool_trans (a b c : Community) (hab : sizeDescBool a b)
    (hbc : sizeDescBool b c) : sizeDescBool a c := by
  unfold sizeDescBool at hab hbc ⊢
  rw [decide_eq_true_eq] at hab hbc
  rw [decide_eq_true_eq]
  omega

/-- The comparison `sizeDescBool` is total. -/
theorem sizeDescBool_total (a b : Community) :
    sizeDescBool a b || sizeDescBool b a := by
  unfold sizeDescBool
  rcases Nat.le_total b.members.length a.members.length with h | h
  · rw [decide_eq_true h]
    rfl
  · rw [decide_eq_true h, Bool.or_true]

/-- Claim C9: the per-scope summary list holds exactly the community ids
in descending size order — all of them when `topK = 0`, the `topK`
largest when `topK ≠ 0`: the returned list is size-descending, is a
permutation of the input when `topK = 0`, has length `min topK n`
otherwise, omits only communities no larger than every kept one, and is
accumulated id-for-id by the scope pass. -/
theorem claim_C9_topk (cs : List Community) (k : Nat)
    (store : Nat → List Int) (scope : Nat) :
    ((community_query cs k).Pairwise
      (fun a b => b.members.length ≤ a.members.length)) ∧
    ((community_query cs 0).Perm cs) ∧
    (k ≠ 0 → (community_query cs k).length = min k cs.length) ∧
    (∃ rest, ((community_query cs k) ++ rest).Perm cs ∧
      ∀ a ∈ community_query cs k, ∀ b ∈ rest,
        b.members.length ≤ a.members.length) ∧
    ((run_scope_pass store (community_query cs k) scope).2 =
      (community_query cs k).map (fun c => c.communityId)) := by
  have hsorted : (cs.mergeSort sizeDescBool).Pairwise
      (fun a b => b.members.length ≤ a.members.length) := by
    have h := List.sorted_mergeSort sizeDescBool_trans sizeDescBool_total
      cs
    refine h.imp ?_
    intro a b hab
    have := of_decide_eq_true hab
    exact this
  refine ⟨?_, ?_, ?_, ?_, ?_⟩
  · unfold community_query
    split
    · exact List.Pairwise.sublist (List.take_sublist _ _) hsorted
    · exact hsorted
  · have : community_query cs 0 = cs.mergeSort sizeDescBool := by
      simp [community_query]
    rw [this]
    exact List.mergeSort_perm cs sizeDescBool
  · intro hk
    have : community_query cs k = (cs.mergeSort sizeDescBool).take k := by
      simp [community_query, hk]
    rw [this]
    simp
  · by_cases hk : k = 0
    · subst hk
      refine ⟨[], ?_, ?_⟩
      · rw [List.append_nil]
        have : community_query cs 0 = cs.mergeSort sizeDescBool := by
          simp [community_query]
        rw [this]
        exact List.mergeSort_perm cs sizeDescBool
      · intro a _ b hb
        exact absurd hb (List.not_mem_nil b)
    · have hq : community_query cs k = (cs.mergeSort sizeDescBool).take k
        := by simp [community_query, hk]
      refine ⟨(cs.mergeSort sizeDescBool).drop k, ?_, ?_⟩
      · rw [hq, List.take_append_drop]
        exact List.mergeSort_perm cs sizeDescBool
      · intro a ha b hb
        rw [hq] at ha
        have hsplit := hsorted
        rw [← List.take_append_drop k (cs.mergeSort sizeDescBool)]
          at hsplit
        exact (List.pairwise_append.mp hsplit).2.2 a ha b hb
  · unfold run_scope_pass
    rw [run_scope_pass_ids_aux]
    simp

/-- Witness for claim C9, at the worked example: 5 communities, `topK = 3`
— the summary holds the 3 largest in descending order. -/
theorem claim_C9_topk_witness :
    (community_query
      [⟨10, [1]⟩, ⟨20, [2, 3, 4]⟩, ⟨30, [5, 6]⟩, ⟨40, [7, 8, 9, 11]⟩,
        ⟨50, [12]⟩] 3).length =
      min 3
        ([⟨10, [1]⟩, ⟨20, [2, 3, 4]⟩, ⟨30, [5, 6]⟩, ⟨40, [7, 8, 9, 11]⟩,
          (⟨50, [12]⟩ : Community)].length) :=
  (claim_C9_topk
    [⟨10, [1]⟩, ⟨20, [2, 3, 4]⟩, ⟨30, [5, 6]⟩, ⟨40, [7, 8, 9, 11]⟩,
      ⟨50, [12]⟩] 3 (fun _ => []) 0).2.2.1 (by decide)

/-! ## Claim C10 -/

/-- Claim C10 (counterexample): reading the refresh frequency of an
unknown collection is claimed to yield a does-not-exist condition, but
`get_update_frequency` has no error outcome at all: for a collection with
no `Update_Info` row it silently returns the default `86000` seconds. -/
theorem claim_C10_counterexample :
    get_update_frequency [⟨"boredapeyachtclub", 86400⟩] "cryptopunks" =
      86000 := by decide

/-- Claim C10 (amended): `get_collection` reports a distinct
does-not-exist condition for an unknown collection (as `get_scope` does
for an unknown scope), but `get_update_frequency` silently substitutes
the default `86000` seconds whenever no `Update_Info` record matches the
collection — unknown collections included. -/
theorem claim_C10_amended_not_found (db : List UpdateInfoNode)
    (collection : List String) (cn : String)
    (h1 : collection.map (fun s => strUpper s) ≠ ["BOREDAPES"])
    (h2 : collection.map (fun s => strUpper s) ≠ ["DEGODS"])
    (h3 : ¬((collection.map (fun s => strUpper s)).length = 2 ∧
      "BOREDAPES" ∈ collection.map (fun s => strUpper s) ∧
      "DEGODS" ∈ collection.map (fun s => strUpper s)))
    (hdb : ∀ nd ∈ db,
      nd.collection_name ≠ get_processed_collection_name cn) :
    (cf_get_collection collection =
      .error ("Collection " ++ String.intercalate "," collection ++
        " does not exist")) ∧
    get_update_frequency db cn = 86000 := by
  constructor
  · have b1 : (collection.map (fun s => strUpper s) == ["BOREDAPES"]) =
        false := by simp [h1]
    have b2 : (collection.map (fun s => strUpper s) == ["DEGODS"]) =
        false := by simp [h2]
    have b3 : (((collection.map (fun s => strUpper s)).length == 2) &&
        (collection.map (fun s => strUpper s)).contains "BOREDAPES" &&
        (collection.map (fun s => strUpper s)).contains "DEGODS") =
        false := by
      by_cases hb : (((collection.map (fun s => strUpper s)).length == 2) &&
        (collection.map (fun s => strUpper s)).contains "BOREDAPES" &&
        (collection.map (fun s => strUpper s)).contains "DEGODS") = true
      · exfalso
        rw [Bool.and_eq_true, Bool.and_eq_true] at hb
        exact h3 ⟨by simpa using hb.1.1, by simpa using hb.1.2,
          by simpa using hb.2⟩
      · exact Bool.eq_false_iff.mpr hb
    simp only [cf_get_collection]
    rw [if_neg (by rw [b1]; exact Bool.false_ne_true),
      if_neg (by rw [b2]; exact Bool.false_ne_true),
      if_neg (by rw [b3]; exact Bool.false_ne_true)]
  · have hfil : db.filter (fun n =>
        n.collection_name == get_processed_collection_name cn) = [] := by
      rw [List.filter_eq_nil_iff]
      intro nd hnd
      simp [hdb nd hnd]
    unfold get_update_frequency
    rw [hfil]

/-- Witness for the amended claim C10 at the concrete unknown collection
`cryptopunks`. -/
theorem claim_C10_amended_not_found_witness :
    (cf_get_collection ["cryptopunks"] =
      .error ("Collection " ++ String.intercalate "," ["cryptopunks"] ++
        " does not exist")) ∧
    get_update_frequency [⟨"boredapeyachtclub", 86400⟩] "cryptopunks" =
      86000 :=
  claim_C10_amended_not_found [⟨"boredapeyachtclub", 86400⟩]
    ["cryptopunks"] "cryptopunks" (by decide) (by decide) (by decide)
    (by decide)

end Blockdash
